import Mathlib

/-! Verification development for `src/alternative/sde.py` of the
Learn_Schrodinger_Bridge repository.

The Python module simulates Euler-Maruyama trajectories of a few SDE
variants.  We embed the module shallowly:

* Tensors are modelled elementwise by a single real number: every tensor
  operation in the source (`+`, `*`, `torch.zeros_like`, scalar broadcast)
  acts independently on each coordinate, so a one-dimensional state carries
  the full semantics.
* Randomness (`torch.randn_like`, `init_dist.sample()`) is modelled by
  explicit oracle arguments: `noise : ℕ → ℝ` supplies the standard-normal
  draw of each loop iteration, and `pSample`/`qSample` supply the draw from
  the data distribution `p` resp. the prior distribution `q`.
* `torch.empty` allocates buffers with arbitrary (uninitialised) contents;
  we model the two allocations by caller-supplied lists `xs0`, `zs0` whose
  contents are arbitrary.
* Python `assert` failures (and the `TypeError` raised by
  `{...}.get(key)(...)` when the key is missing) are modelled by `Option`:
  `none` is a hard failure.
* `tqdm` wrapping (the `_ts` line) only changes progress display, never the
  iterated values, so it is not modelled; likewise the `corrector` and
  `apply_trick` parameters of `sample_traj` are accepted by the source but
  never used on the modelled path.
-/

/-- Configuration object (`opt`).  Fields used by `sde.py`. -/
structure Config where
  T : ℝ
  interval : ℕ
  sde_type : String
  sigma_min : ℝ
  sigma_max : ℝ
  train_method : String

/-- The condition checked by `_assert_increasing(name, ts)`:
`(ts[1:] > ts[:-1]).all()`, i.e. every adjacent pair is strictly
increasing. -/
def strictlyIncreasing (ts : List ℝ) : Prop := List.Chain' (· < ·) ts

/-- The state of a `BaseSDE` instance: the derived step size
`dt = opt.T / opt.interval` together with the two abstract methods `_f`
(drift, a function of `(x, t)`) and `_g` (diffusion, a function of `t`)
that each concrete subclass overrides.  The distributions `p`, `q` are
external collaborators reached only through sampling oracles, so they are
not stored. -/
structure BaseSDE where
  dt : ℝ
  _f : ℝ → ℝ → ℝ
  _g : ℝ → ℝ

/-- Python `BaseSDE.f`: `sign = 1. if direction=='forward' else -1.;
return sign * self._f(x,t)`. -/
def BaseSDE.f (sde : BaseSDE) (x t : ℝ) (direction : String) : ℝ :=
  (if direction = "forward" then (1 : ℝ) else -1) * sde._f x t

/-- Python `BaseSDE.g`: `return self._g(t)`. -/
def BaseSDE.g (sde : BaseSDE) (t : ℝ) : ℝ := sde._g t

/-- Python `BaseSDE.dw`: `dt = self.dt if dt is None else dt;
return torch.randn_like(x)*np.sqrt(dt)`.  The argument `ξ` is the oracle
value of the `torch.randn_like(x)` draw. -/
noncomputable def BaseSDE.dw (sde : BaseSDE) (ξ : ℝ) (dt : Option ℝ) : ℝ :=
  ξ * Real.sqrt (dt.getD sde.dt)

/-- Python `BaseSDE.propagate(t, x, z, direction, f=None, dw=None, dt=None)`:

    g = self.g(t)
    f = self.f(x,t,direction) if f is None else f
    dt = self.dt if dt is None else dt
    dw = self.dw(x,dt) if dw is None else dw
    return x + (f + g*z)*dt + g*dw

`ξ` is the oracle draw used when `dw` is defaulted. -/
noncomputable def BaseSDE.propagate (sde : BaseSDE) (t x z : ℝ)
    (direction : String) (f : Option ℝ) (dw : Option ℝ) (dt : Option ℝ)
    (ξ : ℝ) : ℝ :=
  let g := sde.g t
  let f' := f.getD (sde.f x t direction)
  let dt' := dt.getD sde.dt
  let dw' := dw.getD (sde.dw ξ (some dt'))
  x + (f' + g * z) * dt' + g * dw'

/-- The policy collaborator: a callable `(x, t) ↦ z` carrying a
`direction` attribute. -/
structure Policy where
  direction : String
  act : ℝ → ℝ → ℝ

/-- The body of the `for idx, t in enumerate(_ts)` loop of
`BaseSDE.sample_traj`, recursing over the (possibly already reversed)
time grid.  `n` is `len(ts)`.  Each iteration:

    _t=t if idx==ts.shape[0]-1 else ts[idx+1]
    f = self.f(x,t,direction)
    z = policy(x,t)
    dw = self.dw(x)
    t_idx = idx if direction=='forward' else len(ts)-idx-1
    if save_traj:
        xs[:,t_idx,...]=x
        zs[:,t_idx,...]=z
    x = self.propagate(t, x, z, direction, f=f, dw=dw)

Note that `_t` is computed but never used afterwards; we keep the binding
to mirror the source.  Returns the two buffers and the final state. -/
noncomputable def BaseSDE.sampleLoop (sde : BaseSDE) (direction : String)
    (policy : ℝ → ℝ → ℝ) (noise : ℕ → ℝ) (n : ℕ) (save_traj : Bool) :
    List ℝ → ℕ → ℝ → List ℝ → List ℝ → List ℝ × List ℝ × ℝ
  | [], _idx, x, xs, zs => (xs, zs, x)
  | t :: rest, idx, x, xs, zs =>
    let _t := rest.headD t
    let f := sde.f x t direction
    let z := policy x t
    let dw := sde.dw (noise idx) none
    let t_idx := if direction = "forward" then idx else n - idx - 1
    let xs' := if save_traj then xs.set t_idx x else xs
    let zs' := if save_traj then zs.set t_idx z else zs
    sde.sampleLoop direction policy noise n save_traj rest (idx + 1)
      (sde.propagate t x z direction (some f) (some dw) none (noise idx))
      xs' zs'

open Classical in
/-- Python `BaseSDE.sample_traj(ts, policy, corrector=None, apply_trick=True,
save_traj=True)`.  Failure of either `assert` is `none`.  `pSample` and
`qSample` are the oracle draws of `self.p.sample()` resp.
`self.q.sample()`; `xs0`/`zs0` are the arbitrary initial contents of the
two `torch.empty` buffers (each of length `len(ts)` when well-allocated).
Returns `[xs, zs, x_term]`, with the buffers `none` when `save_traj` is
disabled. -/
noncomputable def BaseSDE.sample_traj (sde : BaseSDE) (ts : List ℝ)
    (policy : Policy) (noise : ℕ → ℝ) (pSample qSample : ℝ)
    (xs0 zs0 : List ℝ) (save_traj : Bool) :
    Option (Option (List ℝ) × Option (List ℝ) × ℝ) :=
  if policy.direction = "forward" ∨ policy.direction = "backward" then
    if strictlyIncreasing ts then
      let ts' := if policy.direction = "forward" then ts else ts.reverse
      let x := if policy.direction = "forward" then pSample else qSample
      let r := sde.sampleLoop policy.direction policy.act noise ts'.length
        save_traj ts' 0 x xs0 zs0
      some (if save_traj then some r.1 else none,
            if save_traj then some r.2.1 else none,
            r.2.2)
    else none
  else none

/-- Python `SimpleSDE(opt, p, q, var=1.0)`: zero drift, constant diffusion
`var`. -/
noncomputable def SimpleSDE (opt : Config) (var : ℝ) : BaseSDE :=
  { dt := opt.T / (opt.interval : ℝ)
    _f := fun _x _t => 0
    _g := fun _t => var }

/-- Source `compute_sigmas(t, s_min, s_max) = s_min * (s_max/s_min)**t`. -/
noncomputable def compute_sigmas (t s_min s_max : ℝ) : ℝ :=
  s_min * (s_max / s_min) ^ t

/-- Source `compute_sigmas_two_ways(t, s_min, s_max)
  = s_min * (s_max/s_min)**(1 - 2*|t-0.5|)`. -/
noncomputable def compute_sigmas_two_ways (t s_min s_max : ℝ) : ℝ :=
  s_min * (s_max / s_min) ^ (1 - 2 * |t - 0.5|)

/-- Source `compute_ve_g_scale(s_min, s_max) = np.sqrt(2*np.log(s_max/s_min))`. -/
noncomputable def compute_ve_g_scale (s_min s_max : ℝ) : ℝ :=
  Real.sqrt (2 * Real.log (s_max / s_min))

/-- Source `compute_ve_diffusion(t, s_min, s_max)`. -/
noncomputable def compute_ve_diffusion (t s_min s_max : ℝ) : ℝ :=
  compute_sigmas t s_min s_max * compute_ve_g_scale s_min s_max

/-- Source `compute_ve2_diffusion(t, s_min, s_max)`. -/
noncomputable def compute_ve2_diffusion (t s_min s_max : ℝ) : ℝ :=
  compute_sigmas_two_ways t s_min s_max * compute_ve_g_scale s_min s_max

/-- Python `VESDE(opt, p, q)`: zero drift, diffusion `compute_ve_diffusion` with
`s_min = opt.sigma_min`, `s_max = opt.sigma_max`. -/
noncomputable def VESDE (opt : Config) : BaseSDE :=
  { dt := opt.T / (opt.interval : ℝ)
    _f := fun _x _t => 0
    _g := fun t => compute_ve_diffusion t opt.sigma_min opt.sigma_max }

/-- Python `VESDE2(opt, p, q)`: zero drift, diffusion `compute_ve2_diffusion`. -/
noncomputable def VESDE2 (opt : Config) : BaseSDE :=
  { dt := opt.T / (opt.interval : ℝ)
    _f := fun _x _t => 0
    _g := fun t => compute_ve2_diffusion t opt.sigma_min opt.sigma_max }

/-- Python `build(opt, p, q)`: dictionary dispatch on `opt.sde_type`.
`{'ve': VESDE, 've2': VESDE2, 'simple': SimpleSDE}.get(opt.sde_type)`
yields `None` for an unregistered key, and the subsequent call
`None(opt, p, q)` raises `TypeError`; we model that hard failure by
`none`.  `SimpleSDE` is called without a `var` argument, so its Python
default `var=1.0` applies. -/
noncomputable def build (opt : Config) : Option BaseSDE :=
  if opt.sde_type = "ve" then some (VESDE opt)
  else if opt.sde_type = "ve2" then some (VESDE2 opt)
  else if opt.sde_type = "simple" then some (SimpleSDE opt 1.0)
  else none

/-- Modelled from the spec (for comparison with the code's `BaseSDE.f`):
"returns `direction=='forward' ? _f(x,t) : -_f(x,t)`.  Fails ... if
`direction` is any value other than the two recognized literals."  The
failure is modelled by `none`. -/
def BaseSDE.f_spec (sde : BaseSDE) (x t : ℝ) (direction : String) :
    Option ℝ :=
  if direction = "forward" then some (sde._f x t)
  else if direction = "backward" then some (-(sde._f x t))
  else none

/-- A concrete configuration used for concrete evaluations:
`T = 1`, `interval = 1` (so `dt = 1`), `sde_type = "simple"`. -/
def cfgSimple : Config :=
  { T := 1, interval := 1, sde_type := "simple",
    sigma_min := 1, sigma_max := 2, train_method := "joint" }

/-- A concrete configuration for a `VESDE` whose diffusion genuinely
varies with `t`: `sigma_min = 1`, `sigma_max = e`, and `dt = 1`. -/
noncomputable def cfgVe : Config :=
  { T := 1, interval := 1, sde_type := "ve",
    sigma_min := 1, sigma_max := Real.exp 1, train_method := "joint" }

/-- A forward policy that always outputs the control `z = 0`. -/
def polZero : Policy := { direction := "forward", act := fun _x _t => 0 }

/-- A backward policy that echoes the time argument, `z = t`. -/
def polTimeB : Policy := { direction := "backward", act := fun _x t => t }

/-- Noise oracle: the first `randn` draw is `1`, all later draws are
`0`. -/
def noiseCE : ℕ → ℝ := fun k => if k = 0 then 1 else 0

/-- A configuration whose `sde_type` matches no registered factory key. -/
def cfgBogus : Config :=
  { T := 1, interval := 1, sde_type := "bogus",
    sigma_min := 1, sigma_max := 2, train_method := "joint" }

/-! Helper lemmas about the trajectory loop. -/

/-- The loop never changes the length of either buffer. -/
theorem sampleLoop_length (sde : BaseSDE) (dir : String) (act : ℝ → ℝ → ℝ)
    (noise : ℕ → ℝ) (n : ℕ) (save : Bool) (l : List ℝ) :
    ∀ (idx : ℕ) (x : ℝ) (xs zs : List ℝ),
      (sde.sampleLoop dir act noise n save l idx x xs zs).1.length = xs.length
      ∧ (sde.sampleLoop dir act noise n save l idx x xs zs).2.1.length
          = zs.length := by
  induction l with
  | nil => intro idx x xs zs; simp [BaseSDE.sampleLoop]
  | cons t rest ih =>
    intro idx x xs zs
    simp only [BaseSDE.sampleLoop]
    refine ⟨((ih _ _ _ _).1).trans ?_, ((ih _ _ _ _).2).trans ?_⟩ <;>
      cases save <;> simp

/-- A forward traversal starting at step index `idx` never touches buffer
slots below `idx`. -/
theorem sampleLoop_fwd_untouched (sde : BaseSDE) (act : ℝ → ℝ → ℝ)
    (noise : ℕ → ℝ) (n : ℕ) (l : List ℝ) :
    ∀ (idx : ℕ) (x : ℝ) (xs zs : List ℝ) (j : ℕ), j < idx →
      (sde.sampleLoop "forward" act noise n true l idx x xs zs).1[j]?
          = xs[j]?
      ∧ (sde.sampleLoop "forward" act noise n true l idx x xs zs).2.1[j]?
          = zs[j]? := by
  induction l with
  | nil => intro idx x xs zs j hj; simp [BaseSDE.sampleLoop]
  | cons t rest ih =>
    intro idx x xs zs j hj
    simp only [BaseSDE.sampleLoop, if_pos rfl, if_true]
    have h1 := ih (idx + 1) (sde.propagate t x (act x t) "forward"
      (some (sde.f x t "forward")) (some (sde.dw (noise idx) none)) none
      (noise idx)) (xs.set idx x) (zs.set idx (act x t)) j (by omega)
    exact ⟨h1.1.trans (List.getElem?_set_ne (by omega)),
           h1.2.trans (List.getElem?_set_ne (by omega))⟩

/-- In a forward traversal, buffer slot `j` (for `idx ≤ j < idx + len l`)
ends up holding the state of step `j` together with the control the policy
produced from that state at the step's own grid time `l[j - idx]`. -/
theorem sampleLoop_fwd_get (sde : BaseSDE) (act : ℝ → ℝ → ℝ)
    (noise : ℕ → ℝ) (n : ℕ) (l : List ℝ) :
    ∀ (idx : ℕ) (x : ℝ) (xs zs : List ℝ) (j : ℕ),
      idx ≤ j → j < idx + l.length → j < xs.length → j < zs.length →
      ∃ xv,
        (sde.sampleLoop "forward" act noise n true l idx x xs zs).1[j]?
            = some xv
        ∧ (sde.sampleLoop "forward" act noise n true l idx x xs zs).2.1[j]?
            = some (act xv (l.getD (j - idx) 0)) := by
  induction l with
  | nil =>
    intro idx x xs zs j h1 h2 h3 h4
    simp only [List.length_nil] at h2
    omega
  | cons t rest ih =>
    intro idx x xs zs j h1 h2 h3 h4
    simp only [BaseSDE.sampleLoop, if_pos rfl, if_true]
    rcases eq_or_lt_of_le h1 with rfl | hlt
    · have hu := sampleLoop_fwd_untouched sde act noise n rest (idx + 1)
        (sde.propagate t x (act x t) "forward" (some (sde.f x t "forward"))
          (some (sde.dw (noise idx) none)) none (noise idx))
        (xs.set idx x) (zs.set idx (act x t)) idx (by omega)
      refine ⟨x, ?_, ?_⟩
      · rw [hu.1, List.getElem?_set_eq (by omega)]
      · rw [hu.2, List.getElem?_set_eq (by omega)]
        simp
    · obtain ⟨k, hk⟩ : ∃ k, j - idx = k + 1 := ⟨j - idx - 1, by omega⟩
      simp only [List.length_cons] at h2
      have := ih (idx + 1) (sde.propagate t x (act x t) "forward"
        (some (sde.f x t "forward")) (some (sde.dw (noise idx) none)) none
        (noise idx)) (xs.set idx x) (zs.set idx (act x t)) j
        (by omega) (by omega) (by simpa using h3) (by simpa using h4)
      rw [hk]
      have hk' : j - (idx + 1) = k := by omega
      rw [hk'] at this
      simpa using this

/-- A backward traversal starting at step index `idx` (with at most
`n - idx` steps left) never touches buffer slots `n - idx` and above:
it writes only the mirrored slots `n - k - 1` for `k ≥ idx`. -/
theorem sampleLoop_bwd_untouched (sde : BaseSDE) (act : ℝ → ℝ → ℝ)
    (noise : ℕ → ℝ) (n : ℕ) (l : List ℝ) :
    ∀ (idx : ℕ) (x : ℝ) (xs zs : List ℝ) (j : ℕ),
      idx + l.length ≤ n → n - idx ≤ j →
      (sde.sampleLoop "backward" act noise n true l idx x xs zs).1[j]?
          = xs[j]?
      ∧ (sde.sampleLoop "backward" act noise n true l idx x xs zs).2.1[j]?
          = zs[j]? := by
  induction l with
  | nil => intro idx x xs zs j _ _; simp [BaseSDE.sampleLoop]
  | cons t rest ih =>
    intro idx x xs zs j hn hj
    simp only [List.length_cons] at hn
    simp only [BaseSDE.sampleLoop, String.reduceEq, reduceIte]
    have h1 := ih (idx + 1) (sde.propagate t x (act x t) "backward"
      (some (sde.f x t "backward")) (some (sde.dw (noise idx) none)) none
      (noise idx)) (xs.set (n - idx - 1) x) (zs.set (n - idx - 1) (act x t))
      j (by omega) (by omega)
    exact ⟨h1.1.trans (List.getElem?_set_ne (by omega)),
           h1.2.trans (List.getElem?_set_ne (by omega))⟩

/-- In a backward traversal, the mirrored buffer slot `n - k - 1` (for a
step index `idx ≤ k < idx + len l`) ends up holding the state of step `k`
together with the control the policy produced from that state at the
step's own grid time `l[k - idx]`. -/
theorem sampleLoop_bwd_get (sde : BaseSDE) (act : ℝ → ℝ → ℝ)
    (noise : ℕ → ℝ) (n : ℕ) (l : List ℝ) :
    ∀ (idx : ℕ) (x : ℝ) (xs zs : List ℝ) (k : ℕ),
      idx + l.length ≤ n → idx ≤ k → k < idx + l.length →
      n - k - 1 < xs.length → n - k - 1 < zs.length →
      ∃ xv,
        (sde.sampleLoop "backward" act noise n true l idx x xs zs).1[n - k - 1]?
            = some xv
        ∧ (sde.sampleLoop "backward" act noise n true l idx x xs zs).2.1[n - k - 1]?
            = some (act xv (l.getD (k - idx) 0)) := by
  induction l with
  | nil =>
    intro idx x xs zs k _ h1 h2 _ _
    simp only [List.length_nil] at h2
    omega
  | cons t rest ih =>
    intro idx x xs zs k hn h1 h2 h3 h4
    simp only [List.length_cons] at hn h2
    simp only [BaseSDE.sampleLoop, String.reduceEq, reduceIte]
    rcases eq_or_lt_of_le h1 with rfl | hlt
    · have hu := sampleLoop_bwd_untouched sde act noise n rest (idx + 1)
        (sde.propagate t x (act x t) "backward"
          (some (sde.f x t "backward")) (some (sde.dw (noise idx) none))
          none (noise idx))
        (xs.set (n - idx - 1) x) (zs.set (n - idx - 1) (act x t))
        (n - idx - 1) (by omega) (by omega)
      refine ⟨x, ?_, ?_⟩
      · rw [hu.1, List.getElem?_set_eq (by omega)]
      · rw [hu.2, List.getElem?_set_eq (by omega)]
        simp
    · obtain ⟨m, hm⟩ : ∃ m, k - idx = m + 1 := ⟨k - idx - 1, by omega⟩
      have := ih (idx + 1) (sde.propagate t x (act x t) "backward"
        (some (sde.f x t "backward")) (some (sde.dw (noise idx) none)) none
        (noise idx)) (xs.set (n - idx - 1) x)
        (zs.set (n - idx - 1) (act x t)) k
        (by omega) (by omega) (by omega)
        (by simpa using h3) (by simpa using h4)
      rw [hm]
      have hm' : k - (idx + 1) = m := by omega
      rw [hm'] at this
      simpa using this

/-- With zero drift and zero diffusion (`SimpleSDE` with `var = 0`), the
running state is left unchanged by every loop iteration. -/
theorem sampleLoop_zero_final (opt : Config) (dir : String)
    (act : ℝ → ℝ → ℝ) (noise : ℕ → ℝ) (n : ℕ) (save : Bool) (l : List ℝ) :
    ∀ (idx : ℕ) (x : ℝ) (xs zs : List ℝ),
      ((SimpleSDE opt 0).sampleLoop dir act noise n save l idx x xs zs).2.2
        = x := by
  induction l with
  | nil => intro idx x xs zs; simp [BaseSDE.sampleLoop]
  | cons t rest ih =>
    intro idx x xs zs
    simp only [BaseSDE.sampleLoop]
    rw [ih]
    simp [BaseSDE.propagate, BaseSDE.f, BaseSDE.g, SimpleSDE]

/-! Claims. -/

/-- Claim C1: for every state `x`, control `z`, time `t`, recognized
direction, and supplied-or-defaulted drift `f`, noise increment `dw` and
step size `dt`, `BaseSDE.propagate` returns exactly
`x + (f + g(t)*z)*dt + g(t)*dw`, with defaults `f = f(x,t,direction)`,
`dt` = the instance's configured step size, and `dw` a fresh noise
increment (the oracle draw `ξ` scaled by `√dt`); no clamping or other
transformation is applied to the result. -/
theorem propagate_formula (sde : BaseSDE) (t x z : ℝ) (direction : String)
    (f dw dt : Option ℝ) (ξ : ℝ)
    (_hdir : direction = "forward" ∨ direction = "backward") :
    sde.propagate t x z direction f dw dt ξ
      = x + (f.getD (sde.f x t direction) + sde.g t * z) * dt.getD sde.dt
          + sde.g t * dw.getD (sde.dw ξ (some (dt.getD sde.dt))) := rfl

/-- Witness for C1 at a concrete instance with all three optional
arguments defaulted. -/
theorem propagate_formula_witness :
    (("forward" : String) = "forward" ∨ ("forward" : String) = "backward")
    ∧ (SimpleSDE cfgSimple 1).propagate 0 2 3 "forward" none none none 5
      = 2 + ((SimpleSDE cfgSimple 1).f 2 0 "forward"
              + (SimpleSDE cfgSimple 1).g 0 * 3) * (SimpleSDE cfgSimple 1).dt
          + (SimpleSDE cfgSimple 1).g 0
              * (SimpleSDE cfgSimple 1).dw 5 (some (SimpleSDE cfgSimple 1).dt) :=
  ⟨Or.inl rfl,
   propagate_formula (SimpleSDE cfgSimple 1) 0 2 3 "forward" none none none 5
     (Or.inl rfl)⟩

/-- Claim C10: when the optional arguments `f`, `dw`, `dt` are all
supplied, `propagate` performs no random draw: its result does not depend
on the noise oracle, so two invocations with identical
`(t, x, z, direction, f, dw, dt)` return equal results. -/
theorem propagate_supplied_deterministic (sde : BaseSDE) (t x z : ℝ)
    (direction : String) (f dw dt : ℝ) (ξ ξ' : ℝ) :
    sde.propagate t x z direction (some f) (some dw) (some dt) ξ
      = sde.propagate t x z direction (some f) (some dw) (some dt) ξ' := rfl

/-- Claim C5 counterexample: `BaseSDE.f` does not fail on an unrecognized
direction string.  For the direction `"diagonal"` the code takes the
`else` branch of `sign = 1. if direction=='forward' else -1.` and returns
the value `-_f(x,t)` — the same value as for `"backward"` — whereas the
spec-mandated variant `f_spec` fails (`none`).  Hence the code's `f`,
lifted to `Option`, disagrees with `f_spec` at this input. -/
theorem f_unrecognized_direction_counterexample :
    BaseSDE.f_spec (SimpleSDE cfgSimple 1) 0 0 "diagonal" = none
    ∧ (SimpleSDE cfgSimple 1).f 0 0 "diagonal"
        = (SimpleSDE cfgSimple 1).f 0 0 "backward"
    ∧ some ((SimpleSDE cfgSimple 1).f 0 0 "diagonal")
        ≠ BaseSDE.f_spec (SimpleSDE cfgSimple 1) 0 0 "diagonal" := by
  refine ⟨by simp [BaseSDE.f_spec], rfl, ?_⟩
  simp [BaseSDE.f_spec]

/-- Claim C5 (amended): `BaseSDE.f(x, t, direction)` returns `_f(x,t)`
when `direction == 'forward'` and `-_f(x,t)` for every other direction
value, recognized or not; `f` itself never fails (the direction check
happens only in `sample_traj`). -/
theorem f_direction_sign (sde : BaseSDE) (x t : ℝ) (direction : String) :
    (direction = "forward" → sde.f x t direction = sde._f x t)
    ∧ (direction ≠ "forward" → sde.f x t direction = -(sde._f x t)) := by
  constructor
  · intro h; simp [BaseSDE.f, h]
  · intro h; simp [BaseSDE.f, h]

/-- Witness for the amended C5, at the recognized direction `"forward"`
and the unrecognized direction `"sideways"`. -/
theorem f_direction_sign_witness :
    (SimpleSDE cfgSimple 1).f 0 0 "forward" = (SimpleSDE cfgSimple 1)._f 0 0
    ∧ (SimpleSDE cfgSimple 1).f 0 0 "sideways"
        = -((SimpleSDE cfgSimple 1)._f 0 0) :=
  ⟨(f_direction_sign (SimpleSDE cfgSimple 1) 0 0 "forward").1 rfl,
   (f_direction_sign (SimpleSDE cfgSimple 1) 0 0 "sideways").2 (by simp)⟩

/-- Claim C6: for bounds `0 < s_min < s_max`, `compute_sigmas` is `s_min`
at `t = 0` and `s_max` at `t = 1`, while `compute_sigmas_two_ways` is
`s_max` at the midpoint `t = 0.5` and `s_min` at both ends `t = 0` and
`t = 1`. -/
theorem sigma_boundary_values (s_min s_max : ℝ) (h0 : 0 < s_min)
    (_h1 : s_min < s_max) :
    compute_sigmas 0 s_min s_max = s_min
    ∧ compute_sigmas 1 s_min s_max = s_max
    ∧ compute_sigmas_two_ways 0.5 s_min s_max = s_max
    ∧ compute_sigmas_two_ways 0 s_min s_max = s_min
    ∧ compute_sigmas_two_ways 1 s_min s_max = s_min := by
  have hne : s_min ≠ 0 := ne_of_gt h0
  refine ⟨?_, ?_, ?_, ?_, ?_⟩
  · simp [compute_sigmas]
  · simp [compute_sigmas, Real.rpow_one]
    field_simp
  · have h : (1 : ℝ) - 2 * |(0.5 : ℝ) - 0.5| = 1 := by norm_num
    simp only [compute_sigmas_two_ways, h, Real.rpow_one]
    field_simp
  · have h : (1 : ℝ) - 2 * |(0 : ℝ) - 0.5| = 0 := by
      rw [show ((0:ℝ) - 0.5) = -0.5 by norm_num, abs_neg, abs_of_pos] <;>
        norm_num
    simp only [compute_sigmas_two_ways, h, Real.rpow_zero, mul_one]
  · have h : (1 : ℝ) - 2 * |(1 : ℝ) - 0.5| = 0 := by
      rw [show ((1:ℝ) - 0.5) = 0.5 by norm_num, abs_of_pos] <;> norm_num
    simp [compute_sigmas_two_ways, h]

/-- Witness for C6 at `s_min = 1`, `s_max = 2`. -/
theorem sigma_boundary_values_witness :
    (0 : ℝ) < 1 ∧ (1 : ℝ) < 2
    ∧ (compute_sigmas 0 1 2 = 1
        ∧ compute_sigmas 1 1 2 = 2
        ∧ compute_sigmas_two_ways 0.5 1 2 = 2
        ∧ compute_sigmas_two_ways 0 1 2 = 1
        ∧ compute_sigmas_two_ways 1 1 2 = 1) :=
  ⟨by norm_num, by norm_num,
   sigma_boundary_values 1 2 (by norm_num) (by norm_num)⟩

/-- Claim C7: the factory `build` returns a `VESDE` instance for `"ve"`,
a `VESDE2` instance for `"ve2"`, a `SimpleSDE` instance for `"simple"`,
and fails (the `.get` lookup yields `None`, whose call raises) with no
fallback default for every other `sde_type` name. -/
theorem build_dispatch (opt : Config) :
    (opt.sde_type = "ve" → build opt = some (VESDE opt))
    ∧ (opt.sde_type = "ve2" → build opt = some (VESDE2 opt))
    ∧ (opt.sde_type = "simple" → build opt = some (SimpleSDE opt 1.0))
    ∧ (opt.sde_type ≠ "ve" → opt.sde_type ≠ "ve2" →
        opt.sde_type ≠ "simple" → build opt = none) := by
  refine ⟨fun h => by simp [build, h], fun h => by simp [build, h],
    fun h => by simp [build, h],
    fun h1 h2 h3 => by simp [build, h1, h2, h3]⟩

/-- Witness for C7: the `"ve"` and `"simple"` keys dispatch to their
variants, and the unregistered key `"bogus"` fails. -/
theorem build_dispatch_witness :
    build cfgVe = some (VESDE cfgVe)
    ∧ build cfgSimple = some (SimpleSDE cfgSimple 1.0)
    ∧ build cfgBogus = none :=
  ⟨(build_dispatch cfgVe).1 rfl,
   (build_dispatch cfgSimple).2.2.1 rfl,
   (build_dispatch cfgBogus).2.2.2 (by decide) (by decide) (by decide)⟩

/-- Claim C9: a `SimpleSDE` built through the factory always has diffusion
constant `var = 1.0`: `build` calls `SimpleSDE(opt, p, q)` without a `var`
argument, so the Python default `1.0` applies and the constructed
instance's diffusion `_g` is constantly `1`; the factory offers no way to
obtain any other constant. -/
theorem build_simple_default_var (opt : Config)
    (h : opt.sde_type = "simple") :
    build opt = some (SimpleSDE opt 1.0)
    ∧ ∀ t : ℝ, (SimpleSDE opt 1.0)._g t = 1 := by
  refine ⟨by simp [build, h], fun t => ?_⟩
  norm_num [SimpleSDE]

/-- Witness for C9 at the concrete configuration `cfgSimple`. -/
theorem build_simple_default_var_witness :
    cfgSimple.sde_type = "simple"
    ∧ build cfgSimple = some (SimpleSDE cfgSimple 1.0)
    ∧ (SimpleSDE cfgSimple 1.0)._g 7 = 1 :=
  ⟨rfl, (build_simple_default_var cfgSimple rfl).1,
   (build_simple_default_var cfgSimple rfl).2 7⟩

/-- Claim C4: for every time grid that is not strictly increasing and
every policy with a recognized direction, `sample_traj` fails
(assertion-style, modelled `none`) before any state mutation: the result
is `none` uniformly in the sampling oracles `pS`, `qS`, the noise oracle,
and the buffer allocations, so no initial batch, buffer write or step
influences anything. -/
theorem sample_traj_nonincreasing_grid_fails (sde : BaseSDE) (ts : List ℝ)
    (pol : Policy) (noise : ℕ → ℝ) (pS qS : ℝ) (xs0 zs0 : List ℝ)
    (save : Bool)
    (hdir : pol.direction = "forward" ∨ pol.direction = "backward")
    (hts : ¬ strictlyIncreasing ts) :
    sde.sample_traj ts pol noise pS qS xs0 zs0 save = none := by
  unfold BaseSDE.sample_traj
  rw [if_pos hdir, if_neg hts]

/-- Witness for C4 at the spec's example grid `[0.0, 0.5, 0.3]`. -/
theorem sample_traj_nonincreasing_grid_fails_witness :
    (polZero.direction = "forward" ∨ polZero.direction = "backward")
    ∧ ¬ strictlyIncreasing [0, 0.5, 0.3]
    ∧ (SimpleSDE cfgSimple 1).sample_traj [0, 0.5, 0.3] polZero noiseCE 0 0
        [0, 0, 0] [0, 0, 0] true = none := by
  have h : ¬ strictlyIncreasing [(0 : ℝ), 0.5, 0.3] := by
    simp [strictlyIncreasing, List.chain'_cons]
    norm_num
  exact ⟨Or.inl rfl, h,
    sample_traj_nonincreasing_grid_fails (SimpleSDE cfgSimple 1) _ polZero
      noiseCE 0 0 [0, 0, 0] [0, 0, 0] true (Or.inl rfl) h⟩

/-- Claim C8: over any strictly increasing grid of length ≥ 2, a
`SimpleSDE` with `var = 0` (zero drift and zero diffusion) run forward
returns a final state equal to the initial batch sampled from the data
distribution `p`: no drift, diffusion or noise contributes at any
step. -/
theorem simple_sde_zero_var_final_state (opt : Config) (ts : List ℝ)
    (pol : Policy) (noise : ℕ → ℝ) (pS qS : ℝ) (xs0 zs0 : List ℝ)
    (hdir : pol.direction = "forward") (hts : strictlyIncreasing ts)
    (_hlen : 2 ≤ ts.length) :
    ∃ xsR zsR,
      (SimpleSDE opt 0).sample_traj ts pol noise pS qS xs0 zs0 true
        = some (some xsR, some zsR, pS) := by
  unfold BaseSDE.sample_traj
  rw [if_pos (Or.inl hdir), if_pos hts]
  simp only [hdir, String.reduceEq, reduceIte, if_pos rfl, if_true]
  exact ⟨_, _, by rw [sampleLoop_zero_final]⟩

/-- Witness for C8 over the grid `[0, 1]` with initial `p`-sample `5`. -/
theorem simple_sde_zero_var_final_state_witness :
    polZero.direction = "forward"
    ∧ strictlyIncreasing [0, 1]
    ∧ 2 ≤ ([(0 : ℝ), 1] : List ℝ).length
    ∧ ∃ xsR zsR,
        (SimpleSDE cfgSimple 0).sample_traj [0, 1] polZero noiseCE 5 6
          [0, 0] [0, 0] true = some (some xsR, some zsR, 5) := by
  have h : strictlyIncreasing [(0 : ℝ), 1] := by
    simp [strictlyIncreasing]
  exact ⟨rfl, h, by simp,
    simple_sde_zero_var_final_state cfgSimple [0, 1] polZero noiseCE 5 6
      [0, 0] [0, 0] rfl h (by simp)⟩

/-- Claim C3: with `save_traj` enabled and a valid grid, the buffers are
filled so that buffer index `i` always holds the state and control
recorded at grid time `ts[i]` of the original (unreversed) grid — the
slot-`i` control is exactly the policy's output on the slot-`i` state at
time `ts[i]`, for forward (increasing-index) and backward
(mirrored-index) traversal alike, and in particular index `0` corresponds
to the smallest time. -/
theorem traj_buffers_time_aligned (sde : BaseSDE) (ts : List ℝ)
    (pol : Policy) (noise : ℕ → ℝ) (pS qS : ℝ) (xs0 zs0 : List ℝ)
    (hdir : pol.direction = "forward" ∨ pol.direction = "backward")
    (hts : strictlyIncreasing ts)
    (hx0 : xs0.length = ts.length) (hz0 : zs0.length = ts.length) :
    ∃ xsR zsR xT,
      sde.sample_traj ts pol noise pS qS xs0 zs0 true
        = some (some xsR, some zsR, xT)
      ∧ xsR.length = ts.length ∧ zsR.length = ts.length
      ∧ ∀ i, i < ts.length →
          ∃ xv tv, ts[i]? = some tv ∧ xsR[i]? = some xv
            ∧ zsR[i]? = some (pol.act xv tv) := by
  unfold BaseSDE.sample_traj
  rw [if_pos hdir, if_pos hts]
  rcases hdir with hd | hd
  · simp only [hd, String.reduceEq, reduceIte]
    refine ⟨_, _, _, rfl, ?_, ?_, ?_⟩
    · exact ((sampleLoop_length sde "forward" pol.act noise ts.length true
        ts 0 pS xs0 zs0).1).trans hx0
    · exact ((sampleLoop_length sde "forward" pol.act noise ts.length true
        ts 0 pS xs0 zs0).2).trans hz0
    · intro i hi
      obtain ⟨xv, h1, h2⟩ := sampleLoop_fwd_get sde pol.act noise ts.length
        ts 0 pS xs0 zs0 i (Nat.zero_le _) (by omega) (by omega) (by omega)
      have hgd : ts.getD i 0 = ts[i] := by
        rw [List.getD_eq_getElem?_getD, List.getElem?_eq_getElem hi]
        rfl
      refine ⟨xv, ts.getD i 0, ?_, h1, ?_⟩
      · rw [hgd]
        exact List.getElem?_eq_getElem hi
      · simpa using h2
  · simp only [hd, String.reduceEq, reduceIte]
    refine ⟨_, _, _, rfl, ?_, ?_, ?_⟩
    · exact ((sampleLoop_length sde "backward" pol.act noise
        ts.reverse.length true ts.reverse 0 qS xs0 zs0).1).trans hx0
    · exact ((sampleLoop_length sde "backward" pol.act noise
        ts.reverse.length true ts.reverse 0 qS xs0 zs0).2).trans hz0
    · intro i hi
      have hn : ts.reverse.length = ts.length := List.length_reverse ts
      obtain ⟨xv, h1, h2⟩ := sampleLoop_bwd_get sde pol.act noise
        ts.reverse.length ts.reverse 0 qS xs0 zs0 (ts.length - 1 - i)
        (by omega) (Nat.zero_le _) (by omega) (by omega) (by omega)
      have hik : ts.reverse.length - (ts.length - 1 - i) - 1 = i := by
        omega
      rw [hik] at h1 h2
      have ht : ts.reverse.getD (ts.length - 1 - i - 0) 0 = ts.getD i 0 := by
        rw [Nat.sub_zero, List.getD_eq_getElem?_getD,
          List.getElem?_reverse (by omega),
          show ts.length - 1 - (ts.length - 1 - i) = i by omega,
          ← List.getD_eq_getElem?_getD]
      rw [ht] at h2
      have hgd : ts.getD i 0 = ts[i] := by
        rw [List.getD_eq_getElem?_getD, List.getElem?_eq_getElem hi]
        rfl
      refine ⟨xv, ts.getD i 0, ?_, h1, h2⟩
      rw [hgd]
      exact List.getElem?_eq_getElem hi

/-- Witness for C3: a backward run over the grid `[0, 1]` with the
time-echoing policy. -/
theorem traj_buffers_time_aligned_witness :
    (polTimeB.direction = "forward" ∨ polTimeB.direction = "backward")
    ∧ strictlyIncreasing [0, 1]
    ∧ ([(0 : ℝ), 0] : List ℝ).length = ([(0 : ℝ), 1] : List ℝ).length
    ∧ ∃ xsR zsR xT,
        (SimpleSDE cfgSimple 1).sample_traj [0, 1] polTimeB noiseCE 0 9
          [0, 0] [0, 0] true = some (some xsR, some zsR, xT)
        ∧ xsR.length = ([(0 : ℝ), 1] : List ℝ).length
        ∧ zsR.length = ([(0 : ℝ), 1] : List ℝ).length
        ∧ ∀ i, i < ([(0 : ℝ), 1] : List ℝ).length →
            ∃ xv tv, ([(0 : ℝ), 1] : List ℝ)[i]? = some tv
              ∧ xsR[i]? = some xv
              ∧ zsR[i]? = some (polTimeB.act xv tv) := by
  have h : strictlyIncreasing [(0 : ℝ), 1] := by
    simp [strictlyIncreasing]
  exact ⟨Or.inr rfl, h, rfl,
    traj_buffers_time_aligned (SimpleSDE cfgSimple 1) [0, 1] polTimeB
      noiseCE 0 9 [0, 0] [0, 0] (Or.inr rfl) h rfl rfl⟩

/-- Claim C2 (amended): each step of `sample_traj` evaluates drift and
diffusion at the step's CURRENT grid time, not the next one: the loop
computes `_t` (the next grid time, or the same time at the final index)
but never uses it, and calls `self.propagate(t, ...)` with the current
time `t`.  Concretely, over a two-point forward grid `[t0, t1]` the final
state is obtained by propagating at time `t0` and then at time `t1`. -/
theorem sample_traj_uses_current_time (sde : BaseSDE) (pol : Policy)
    (noise : ℕ → ℝ) (pS qS : ℝ) (xs0 zs0 : List ℝ) (t0 t1 : ℝ)
    (hdir : pol.direction = "forward") (h01 : t0 < t1) :
    ∃ xsR zsR x1,
      x1 = sde.propagate t0 pS (pol.act pS t0) "forward"
        (some (sde.f pS t0 "forward")) (some (sde.dw (noise 0) none)) none
        (noise 0)
      ∧ sde.sample_traj [t0, t1] pol noise pS qS xs0 zs0 true
        = some (some xsR, some zsR,
            sde.propagate t1 x1 (pol.act x1 t1) "forward"
              (some (sde.f x1 t1 "forward")) (some (sde.dw (noise 1) none))
              none (noise 1)) := by
  have hts : strictlyIncreasing [t0, t1] := by
    simp [strictlyIncreasing, h01]
  unfold BaseSDE.sample_traj
  rw [if_pos (Or.inl hdir), if_pos hts]
  simp only [hdir, String.reduceEq, reduceIte]
  refine ⟨(xs0.set 0 pS).set 1 (sde.propagate t0 pS (pol.act pS t0)
      "forward" (some (sde.f pS t0 "forward"))
      (some (sde.dw (noise 0) none)) none (noise 0)),
    (zs0.set 0 (pol.act pS t0)).set 1 (pol.act (sde.propagate t0 pS
      (pol.act pS t0) "forward" (some (sde.f pS t0 "forward"))
      (some (sde.dw (noise 0) none)) none (noise 0)) t1),
    sde.propagate t0 pS (pol.act pS t0) "forward"
      (some (sde.f pS t0 "forward")) (some (sde.dw (noise 0) none)) none
      (noise 0),
    rfl, ?_⟩
  simp [BaseSDE.sampleLoop]

/-- Witness for the amended C2 over the grid `[0, 1]`. -/
theorem sample_traj_uses_current_time_witness :
    polZero.direction = "forward" ∧ (0 : ℝ) < 1
    ∧ ∃ xsR zsR x1,
        x1 = (SimpleSDE cfgSimple 1).propagate 0 7 (polZero.act 7 0)
          "forward" (some ((SimpleSDE cfgSimple 1).f 7 0 "forward"))
          (some ((SimpleSDE cfgSimple 1).dw (noiseCE 0) none)) none
          (noiseCE 0)
        ∧ (SimpleSDE cfgSimple 1).sample_traj [0, 1] polZero noiseCE 7 8
            [0, 0] [0, 0] true
          = some (some xsR, some zsR,
              (SimpleSDE cfgSimple 1).propagate 1 x1 (polZero.act x1 1)
                "forward" (some ((SimpleSDE cfgSimple 1).f x1 1 "forward"))
                (some ((SimpleSDE cfgSimple 1).dw (noiseCE 1) none)) none
                (noiseCE 1)) :=
  ⟨rfl, by norm_num,
   sample_traj_uses_current_time (SimpleSDE cfgSimple 1) polZero noiseCE 7 8
     [0, 0] [0, 0] 0 1 rfl (by norm_num)⟩

/-- Claim C2 counterexample: over the forward grid `[0, 1]` with a VESDE
whose diffusion is `g(t) = e^t * √2` (σ_min = 1, σ_max = e, dt = 1), zero
policy, initial sample `0`, first noise draw `1` and second draw `0`, the
code's first step lands on `g(0)·dw₀ = √2` (which is also the final
state, the second step contributing nothing): diffusion is evaluated at
the CURRENT grid time `ts[0] = 0`.  Had the step instead used the next
grid time `ts[1] = 1` as its reference time for drift/diffusion — as the
claim states — it would have produced `g(1)·dw₀ = e·√2`, a different
value.  The `_t = ts[idx+1]` value is computed by the loop but never
passed to `propagate`. -/
theorem sample_traj_next_time_counterexample :
    (VESDE cfgVe).sample_traj [0, 1] polZero noiseCE 0 0 [0, 0] [0, 0] true
      = some (some [0, Real.sqrt 2], some [0, 0], Real.sqrt 2)
    ∧ (VESDE cfgVe).propagate 1 0 (polZero.act 0 0) "forward"
        (some ((VESDE cfgVe).f 0 1 "forward"))
        (some ((VESDE cfgVe).dw (noiseCE 0) none)) none (noiseCE 0)
      = Real.exp 1 * Real.sqrt 2
    ∧ Real.sqrt 2 ≠ Real.exp 1 * Real.sqrt 2 := by
  have hts : strictlyIncreasing [(0 : ℝ), 1] := by
    simp [strictlyIncreasing]
  have hdirP : polZero.direction = "forward" ∨ polZero.direction = "backward" :=
    Or.inl rfl
  refine ⟨?_, ?_, ?_⟩
  · unfold BaseSDE.sample_traj
    rw [if_pos hdirP, if_pos hts]
    norm_num [BaseSDE.sampleLoop, BaseSDE.propagate, BaseSDE.f, BaseSDE.g,
      BaseSDE.dw, VESDE, cfgVe, polZero, noiseCE, compute_ve_diffusion,
      compute_sigmas, compute_ve_g_scale, Real.rpow_zero, Real.rpow_one,
      Real.log_exp, Real.sqrt_one]
  · norm_num [BaseSDE.propagate, BaseSDE.f, BaseSDE.g, BaseSDE.dw, VESDE,
      cfgVe, polZero, noiseCE, compute_ve_diffusion, compute_sigmas,
      compute_ve_g_scale, Real.rpow_one, Real.log_exp, Real.sqrt_one]
  · intro hcontra
    have h2 : (0 : ℝ) < Real.sqrt 2 := Real.sqrt_pos.mpr (by norm_num)
    have he : (2 : ℝ) ≤ Real.exp 1 := by
      have h := Real.add_one_le_exp (1 : ℝ)
      linarith
    have hz : (Real.exp 1 - 1) * Real.sqrt 2 = 0 := by
      have h : Real.exp 1 * Real.sqrt 2 - Real.sqrt 2 = 0 := by linarith
      linear_combination h
    have hpos : 0 < (Real.exp 1 - 1) * Real.sqrt 2 :=
      mul_pos (by linarith) h2
    linarith
